import Mathlib

/-!
Shallow embedding of `backend-comparison/src/burnbenchapp/tui/components/regions.rs`:
a two-column terminal layout (left column with Backend/Benches/Action slots,
right column with Results/Progress slots), percentage-based nested splits, and
decorated blocks for each slot.

Machine integers (`u16`, `usize`) are modelled as `Nat`; the percentages and
frame dimensions involved stay far below `2^16`, and the layout arithmetic in
the original delegates to a floating-point constraint solver, so no wrap-around
is modelled. Fallible indexing (`self.rects[index]`, which panics in Rust when
out of range) is modelled with `Option`.
-/

-- Layout primitives -----------------------------------------------------------

/-- A rectangle in terminal cells (ratatui `Rect`): origin `x`,`y` and size. -/
structure Rect where
  x : Nat
  y : Nat
  width : Nat
  height : Nat
deriving Repr, DecidableEq

/-- Modelled from the spec: ratatui's percentage-split primitive
(`Layout::split` with `Constraint::Percentage`, external to src/) rounds each
segment to `round(total * percentage / 100)`, with the rounding remainder
resolved by left-to-right allocation.  `roundPct total cum` is the rounded
cumulative boundary `round(total * cum / 100)` in integer arithmetic. -/
def roundPct (total cum : Nat) : Nat :=
  (total * cum + 50) / 100

/-- Modelled from the spec: segment sizes of a percentage split, computed as
successive differences of rounded cumulative boundaries (the deterministic
left-to-right allocation of the partitioning primitive). `acc` is the sum of
the percentages already consumed. -/
def cumSizes (total : Nat) : Nat → List Nat → List Nat
  | _, [] => []
  | acc, p :: rest =>
    (roundPct total (acc + p) - roundPct total acc) :: cumSizes total (acc + p) rest

/-- Modelled from the spec: the list of segment sizes a percentage split of
`total` cells produces for the given percentage list. -/
def splitSizes (total : Nat) (ps : List Nat) : List Nat :=
  cumSizes total 0 ps

/-- Stack segment heights top-to-bottom starting at `y`, producing rectangles
of a common `x` and `width`. -/
def stackV (x y width : Nat) : List Nat → List Rect
  | [] => []
  | h :: rest => ⟨x, y, width, h⟩ :: stackV x (y + h) width rest

/-- Stack segment widths left-to-right starting at `x`, producing rectangles
of a common `y` and `height`. -/
def stackH (x y height : Nat) : List Nat → List Rect
  | [] => []
  | w :: rest => ⟨x, y, w, height⟩ :: stackH (x + w) y height rest

/-- Modelled from the spec: a vertical percentage split of a rectangle
(ratatui `Layout` with `Direction::Vertical`). -/
def vsplit (r : Rect) (ps : List Nat) : List Rect :=
  stackV r.x r.y r.width (splitSizes r.height ps)

/-- Modelled from the spec: a horizontal percentage split of a rectangle
(ratatui `Layout` with `Direction::Horizontal`). -/
def hsplit (r : Rect) (ps : List Nat) : List Rect :=
  stackH r.x r.y r.height (splitSizes r.width ps)

-- Styling model (ratatui widget vocabulary used by `Region::block`) -----------

/-- The colors referenced by the source (`ratatui::style::Color`). -/
inductive Color
  | DarkGray
  | Black
deriving Repr, DecidableEq

/-- A style: optional foreground and background colors (`ratatui Style`). -/
structure Style where
  fg : Option Color := none
  bg : Option Color := none
deriving Repr, DecidableEq

/-- Title position on a block (`ratatui widgets::block::Position`). -/
inductive TitlePosition
  | Top
  | Bottom
deriving Repr, DecidableEq

/-- Horizontal alignment (`ratatui layout::Alignment`). -/
inductive TitleAlignment
  | Left
  | Center
  | Right
deriving Repr, DecidableEq

/-- Which borders of a block are drawn (`ratatui Borders` bitflags). -/
structure Borders where
  top : Bool := false
  right : Bool := false
  bottom : Bool := false
  left : Bool := false
deriving Repr, DecidableEq

/-- All four borders (`Borders::all()`). -/
def Borders.all : Borders :=
  ⟨true, true, true, true⟩

/-- Border drawing style (`ratatui BorderType`). -/
inductive BorderType
  | Plain
  | Rounded
  | Double
  | Thick
deriving Repr, DecidableEq

/-- Block padding in cells (`ratatui widgets::Padding`). -/
structure Padding where
  left : Nat
  right : Nat
  top : Nat
  bottom : Nat
deriving Repr, DecidableEq

/-- A block widget description (`ratatui widgets::Block`): the fields set by
the builder calls used in the source. -/
structure Block where
  title : Option String := none
  title_position : Option TitlePosition := none
  title_alignment : TitleAlignment := TitleAlignment.Left
  borders : Borders := {}
  border_style : Style := {}
  border_type : BorderType := BorderType.Plain
  padding : Padding := ⟨0, 0, 0, 0⟩
  style : Style := {}
deriving Repr, DecidableEq

/-- `Block::default()`. -/
def Block.default : Block := {}

-- Region base ------------------------------------------------------------------

/-- `RegionInfo`: per-column static metadata. -/
structure RegionInfo where
  width_percentage : Nat
deriving Repr, DecidableEq

/-- `RegionRectInfo`: per-slot static metadata. -/
structure RegionRectInfo where
  index : Nat
  title : String
  height_percentage : Nat
  hotkey : Char
deriving Repr, DecidableEq

/-- The `GetRegionInfo` trait: total static metadata resolution. -/
class GetRegionInfo (T : Type) where
  get_region_info : RegionInfo
  get_rect_info : T → RegionRectInfo

/-- `Region<T>`: a column's metadata together with its computed rectangles.
The `Rc<[Rect]>` shared slice is modelled as a `List Rect`; the phantom type
parameter is kept as the type parameter `T`. -/
structure Region (T : Type) where
  rects : List Rect
  info : RegionInfo
deriving Repr, DecidableEq

/-- `Region::<T>::new`: wraps an arbitrary rectangle sequence, with the
column's static metadata.  No validation of the sequence length is performed,
exactly as in the source. -/
def Region.new (T : Type) [GetRegionInfo T] (rects : List Rect) : Region T :=
  ⟨rects, GetRegionInfo.get_region_info (T := T)⟩

-- Left region -------------------------------------------------------------------

/-- The `LeftRegion` slot identities. -/
inductive LeftRegion
  | Top
  | Middle
  | Bottom
deriving Repr, DecidableEq

instance instGetRegionInfoLeft : GetRegionInfo LeftRegion where
  get_region_info := { width_percentage := 25 }
  get_rect_info
    | LeftRegion.Top =>
        { index := 0, title := "Backend", height_percentage := 30, hotkey := 'b' }
    | LeftRegion.Middle =>
        { index := 1, title := "Benches", height_percentage := 60, hotkey := 'n' }
    | LeftRegion.Bottom =>
        { index := 2, title := "Action", height_percentage := 10, hotkey := 'a' }

-- Right region ------------------------------------------------------------------

/-- The `RightRegion` slot identities. -/
inductive RightRegion
  | Top
  | Bottom
deriving Repr, DecidableEq

instance instGetRegionInfoRight : GetRegionInfo RightRegion where
  get_region_info :=
    { width_percentage :=
        100 - (GetRegionInfo.get_region_info (T := LeftRegion)).width_percentage }
  get_rect_info
    | RightRegion.Top =>
        { index := 0, title := "Results", height_percentage := 90, hotkey := 'r' }
    | RightRegion.Bottom =>
        { index := 1, title := "Progress", height_percentage := 10, hotkey := 'p' }

-- Regions definition ------------------------------------------------------------

/-- The host frame (ratatui `Frame`, external to src/): current drawable
dimensions in cells, plus redraw-cycle state (the completed-frame counter)
that the layout never reads. `Frame::size()` returns the full drawable area,
whose origin is the top-left cell. -/
structure Frame where
  width : Nat
  height : Nat
  count : Nat
deriving Repr, DecidableEq

/-- `Frame::size()`: the full drawable area. -/
def Frame.size (f : Frame) : Rect :=
  ⟨0, 0, f.width, f.height⟩

/-- `Regions<L, R>`: the left and right column regions. -/
structure Regions (L R : Type) where
  left : Region L
  right : Region R
deriving Repr, DecidableEq

/-- `Regions::new_with_rect`. -/
def Regions.new_with_rect (L R : Type) [GetRegionInfo L] [GetRegionInfo R]
    (left_rects right_rects : List Rect) : Regions L R :=
  { left := ⟨left_rects, GetRegionInfo.get_region_info (T := L)⟩,
    right := ⟨right_rects, GetRegionInfo.get_region_info (T := R)⟩ }

/-- `Regions::<LeftRegion, RightRegion>::new`: split the frame horizontally by
the two column percentages, then split each column vertically by its slot
percentages. The `outer_layout[0]` / `outer_layout[1]` indexings of the
source are in bounds because the split of two constraints yields two
rectangles; `getD` with a degenerate default mirrors them totally. -/
def Regions.new (frame : Frame) : Regions LeftRegion RightRegion :=
  let outer_layout := hsplit frame.size
    [(GetRegionInfo.get_region_info (T := LeftRegion)).width_percentage,
     (GetRegionInfo.get_region_info (T := RightRegion)).width_percentage]
  let left_rects := vsplit (outer_layout.getD 0 ⟨0, 0, 0, 0⟩)
    [(GetRegionInfo.get_rect_info LeftRegion.Top).height_percentage,
     (GetRegionInfo.get_rect_info LeftRegion.Middle).height_percentage,
     (GetRegionInfo.get_rect_info LeftRegion.Bottom).height_percentage]
  let right_rects := vsplit (outer_layout.getD 1 ⟨0, 0, 0, 0⟩)
    [(GetRegionInfo.get_rect_info RightRegion.Top).height_percentage,
     (GetRegionInfo.get_rect_info RightRegion.Bottom).height_percentage]
  Regions.new_with_rect LeftRegion RightRegion left_rects right_rects

-- Region lookup and decoration ---------------------------------------------------

/-- `Region::rect`: index the rectangle sequence by the slot's ordinal.
The Rust indexing panics when out of range; this is modelled by `Option`. -/
def Region.rect [GetRegionInfo T] (r : Region T) (position : T) : Option Rect :=
  r.rects.get? (GetRegionInfo.get_rect_info position).index

/-- `Region::block`: the decorated block for a slot — title
`"<title> (<hotkey>)"` centered at the top, all four borders rounded in dark
gray, padding 10/10/2/2, black background. -/
def Region.block [GetRegionInfo T] (_r : Region T) (position : T) : Block :=
  { title := some ((GetRegionInfo.get_rect_info position).title ++ " (" ++
      String.mk [(GetRegionInfo.get_rect_info position).hotkey] ++ ")"),
    title_position := some TitlePosition.Top,
    title_alignment := TitleAlignment.Center,
    borders := Borders.all,
    border_style := { fg := some Color.DarkGray },
    border_type := BorderType.Rounded,
    padding := ⟨10, 10, 2, 2⟩,
    style := { bg := some Color.Black } }

/-- `Regions::draw`: render each slot's block into its looked-up rectangle,
left column top-to-bottom then right column top-to-bottom. The rendered
side effect is modelled as the ordered list of (widget, area) commands
passed to `frame.render_widget`. -/
def Regions.draw (r : Regions LeftRegion RightRegion) :
    List (Block × Option Rect) :=
  [ (r.left.block LeftRegion.Top, r.left.rect LeftRegion.Top),
    (r.left.block LeftRegion.Middle, r.left.rect LeftRegion.Middle),
    (r.left.block LeftRegion.Bottom, r.left.rect LeftRegion.Bottom),
    (r.right.block RightRegion.Top, r.right.rect RightRegion.Top),
    (r.right.block RightRegion.Bottom, r.right.rect RightRegion.Bottom) ]

-- Property vocabulary -------------------------------------------------------------

/-- The rectangles tile the vertical strip of horizontal extent `[x, x + w)`
and vertical extent `[y0, y1)`: each rectangle sits at `x` with width `w`,
starts exactly where the previous one ended (no gap, no overlap), and the
last one ends exactly at `y1`. -/
def tilesV (x w y0 y1 : Nat) : List Rect → Bool
  | [] => y0 == y1
  | r :: rest =>
      r.x == x && r.width == w && r.y == y0 && tilesV x w (y0 + r.height) y1 rest

-- Helper lemmas --------------------------------------------------------------------

/-- The computed left-column rectangles, in closed form over the frame size. -/
theorem regions_new_left_rects (f : Frame) : (Regions.new f).left.rects =
    [⟨0, 0, (f.width * 25 + 50) / 100, (f.height * 30 + 50) / 100⟩,
     ⟨0, (f.height * 30 + 50) / 100, (f.width * 25 + 50) / 100,
       (f.height * 90 + 50) / 100 - (f.height * 30 + 50) / 100⟩,
     ⟨0, (f.height * 90 + 50) / 100, (f.width * 25 + 50) / 100,
       f.height - (f.height * 90 + 50) / 100⟩] := by
  simp [Regions.new, Regions.new_with_rect, hsplit, vsplit, splitSizes, cumSizes,
    roundPct, stackH, stackV, Frame.size, Rect.mk.injEq,
    instGetRegionInfoLeft, instGetRegionInfoRight]
  omega

/-- The computed right-column rectangles, in closed form over the frame size. -/
theorem regions_new_right_rects (f : Frame) : (Regions.new f).right.rects =
    [⟨(f.width * 25 + 50) / 100, 0, f.width - (f.width * 25 + 50) / 100,
       (f.height * 90 + 50) / 100⟩,
     ⟨(f.width * 25 + 50) / 100, (f.height * 90 + 50) / 100,
       f.width - (f.width * 25 + 50) / 100, f.height - (f.height * 90 + 50) / 100⟩] := by
  simp [Regions.new, Regions.new_with_rect, hsplit, vsplit, splitSizes, cumSizes,
    roundPct, stackH, stackV, Frame.size, Rect.mk.injEq,
    instGetRegionInfoLeft, instGetRegionInfoRight]
  omega

/-- A percentage split always yields one segment per percentage, whatever the
percentages are. -/
theorem cumSizes_length (t : Nat) : ∀ (acc : Nat) (ps : List Nat),
    (cumSizes t acc ps).length = ps.length
  | _, [] => rfl
  | acc, p :: rest => congrArg Nat.succ (cumSizes_length t (acc + p) rest)

-- Claim theorems -------------------------------------------------------------------

/-- C1: on a 100×40 frame, the left column spans x∈[0,25) at full height with
slot heights 12/24/4 (sum 40), and the right column spans x∈[25,100) with
slot heights 36/4. -/
theorem regions_new_100x40_concrete :
    (Regions.new ⟨100, 40, 0⟩).left.rects =
      [⟨0, 0, 25, 12⟩, ⟨0, 12, 25, 24⟩, ⟨0, 36, 25, 4⟩] ∧
    (Regions.new ⟨100, 40, 0⟩).right.rects =
      [⟨25, 0, 75, 36⟩, ⟨25, 36, 75, 4⟩] ∧
    12 + 24 + 4 = 40 ∧ 36 + 4 = 40 := by
  refine ⟨rfl, rfl, rfl, rfl⟩

/-- C2: for every frame, the layout tiles the frame — the left sequence has
length 3 and the right length 2; there are column widths summing exactly to
the frame width (odd widths included) with the left column at x = 0 and the
right immediately adjacent; within each column the slots are vertically
adjacent with no gaps or overlaps, covering the full frame height; and every
slot height is within 1 cell of its exact percentage share (stated as a
deviation of at most 100 after scaling by 100). -/
theorem regions_new_tiles_frame (f : Frame) :
    (Regions.new f).left.rects.length = 3 ∧
    (Regions.new f).right.rects.length = 2 ∧
    (∃ wl wr, wl + wr = f.width ∧
      tilesV 0 wl 0 f.height (Regions.new f).left.rects = true ∧
      tilesV wl wr 0 f.height (Regions.new f).right.rects = true) ∧
    List.Forall₂
      (fun r p => ((100 : Int) * r.height - (f.height : Int) * p).natAbs ≤ 100)
      (Regions.new f).left.rects [(30 : Int), 60, 10] ∧
    List.Forall₂
      (fun r p => ((100 : Int) * r.height - (f.height : Int) * p).natAbs ≤ 100)
      (Regions.new f).right.rects [(90 : Int), 10] := by
  simp only [regions_new_left_rects, regions_new_right_rects]
  refine ⟨rfl, rfl,
    ⟨(f.width * 25 + 50) / 100, f.width - (f.width * 25 + 50) / 100,
      by omega, ?_, ?_⟩, ?_, ?_⟩
  · simp [tilesV]
    omega
  · simp [tilesV]
    omega
  · refine List.Forall₂.cons ?_ (List.Forall₂.cons ?_
      (List.Forall₂.cons ?_ List.Forall₂.nil)) <;> simp <;> omega
  · refine List.Forall₂.cons ?_ (List.Forall₂.cons ?_ List.Forall₂.nil) <;>
      simp <;> omega

/-- C3: on a layout built by `Regions.new`, looking a slot up through
`Region.rect` returns exactly the entry at that slot's declared ordinal in
the column's computed sequence (left 0/1/2, right 0/1), and each lookup
succeeds. -/
theorem region_rect_ordinal_lookup (f : Frame) :
    (Regions.new f).left.rect LeftRegion.Top = (Regions.new f).left.rects.get? 0 ∧
    (Regions.new f).left.rect LeftRegion.Middle = (Regions.new f).left.rects.get? 1 ∧
    (Regions.new f).left.rect LeftRegion.Bottom = (Regions.new f).left.rects.get? 2 ∧
    (Regions.new f).right.rect RightRegion.Top = (Regions.new f).right.rects.get? 0 ∧
    (Regions.new f).right.rect RightRegion.Bottom = (Regions.new f).right.rects.get? 1 ∧
    (∀ s : LeftRegion, ((Regions.new f).left.rect s).isSome = true) ∧
    (∀ s : RightRegion, ((Regions.new f).right.rect s).isSome = true) := by
  refine ⟨rfl, rfl, rfl, rfl, rfl, ?_, ?_⟩
  · intro s
    cases s <;> simp [Region.rect, regions_new_left_rects, instGetRegionInfoLeft]
  · intro s
    cases s <;> simp [Region.rect, regions_new_right_rects, instGetRegionInfoRight]

/-- C4: for every slot of either column, the decorated block carries the title
text `"<declared title> (<declared hotkey>)"` centered at the top, all four
borders with rounded corners in dark gray, padding of 10 cells left/right and
2 cells top/bottom, and a black background fill — whatever the region value
is. -/
theorem region_block_decoration (rl : Region LeftRegion) (rr : Region RightRegion) :
    rl.block LeftRegion.Top =
      { title := some "Backend (b)", title_position := some TitlePosition.Top,
        title_alignment := TitleAlignment.Center, borders := Borders.all,
        border_style := { fg := some Color.DarkGray },
        border_type := BorderType.Rounded, padding := ⟨10, 10, 2, 2⟩,
        style := { bg := some Color.Black } } ∧
    rl.block LeftRegion.Middle =
      { title := some "Benches (n)", title_position := some TitlePosition.Top,
        title_alignment := TitleAlignment.Center, borders := Borders.all,
        border_style := { fg := some Color.DarkGray },
        border_type := BorderType.Rounded, padding := ⟨10, 10, 2, 2⟩,
        style := { bg := some Color.Black } } ∧
    rl.block LeftRegion.Bottom =
      { title := some "Action (a)", title_position := some TitlePosition.Top,
        title_alignment := TitleAlignment.Center, borders := Borders.all,
        border_style := { fg := some Color.DarkGray },
        border_type := BorderType.Rounded, padding := ⟨10, 10, 2, 2⟩,
        style := { bg := some Color.Black } } ∧
    rr.block RightRegion.Top =
      { title := some "Results (r)", title_position := some TitlePosition.Top,
        title_alignment := TitleAlignment.Center, borders := Borders.all,
        border_style := { fg := some Color.DarkGray },
        border_type := BorderType.Rounded, padding := ⟨10, 10, 2, 2⟩,
        style := { bg := some Color.Black } } ∧
    rr.block RightRegion.Bottom =
      { title := some "Progress (p)", title_position := some TitlePosition.Top,
        title_alignment := TitleAlignment.Center, borders := Borders.all,
        border_style := { fg := some Color.DarkGray },
        border_type := BorderType.Rounded, padding := ⟨10, 10, 2, 2⟩,
        style := { bg := some Color.Black } } :=
  ⟨rfl, rfl, rfl, rfl, rfl⟩

/-- C5 counterexample: an invalid configuration is silently tolerated, not
rejected.  Percentages summing to 80 still produce an ordinary segment list
(covering only 80 of the 100 rows, with no error value anywhere), and an
empty slot set produces an empty sequence rather than a failure — the
construction path contains no validation and has no failure mode. -/
theorem split_silently_tolerates_bad_config :
    splitSizes 100 [30, 50] = [30, 50] ∧
    (30 + 50 ≠ 100 ∧ (splitSizes 100 [30, 50]).sum = 80) ∧
    splitSizes 100 ([] : List Nat) = [] := by
  refine ⟨rfl, ⟨by decide, rfl⟩, rfl⟩

/-- C5 amended: layout construction never fails and performs no validation —
for every total size and every percentage list, valid or not, the split
returns one segment per requested slot (so `Regions::new`, built on it, is a
total function); separately, the static percentages used by `Regions::new` do
sum to 100, so an invalid configuration can never actually reach it. -/
theorem split_total_no_validation :
    (∀ (t : Nat) (ps : List Nat), (splitSizes t ps).length = ps.length) ∧
    (∀ (r : Rect) (ps : List Nat), (vsplit r ps).length = ps.length) ∧
    (GetRegionInfo.get_region_info (T := LeftRegion)).width_percentage +
      (GetRegionInfo.get_region_info (T := RightRegion)).width_percentage = 100 := by
  have hstack : ∀ (x y w : Nat) (hs : List Nat), (stackV x y w hs).length = hs.length := by
    intro x y w hs
    induction hs generalizing y with
    | nil => rfl
    | cons h rest ih => exact congrArg Nat.succ (ih _)
  refine ⟨fun t ps => cumSizes_length t 0 ps, fun r ps => ?_, rfl⟩
  simpa [vsplit, hstack] using cumSizes_length r.height 0 ps

/-- C6: the declared static metadata satisfies the configuration invariants —
column percentages 25 and 75 summing to 100, slot percentages 30+60+10 and
90+10 each summing to 100 (all `Nat`, hence non-negative), and ordinal
indices forming the contiguous zero-based ranges 0/1/2 and 0/1 in declared
order. -/
theorem static_metadata_invariants :
    (GetRegionInfo.get_region_info (T := LeftRegion)).width_percentage = 25 ∧
    (GetRegionInfo.get_region_info (T := RightRegion)).width_percentage = 75 ∧
    (GetRegionInfo.get_region_info (T := LeftRegion)).width_percentage +
      (GetRegionInfo.get_region_info (T := RightRegion)).width_percentage = 100 ∧
    (GetRegionInfo.get_rect_info LeftRegion.Top).height_percentage +
      (GetRegionInfo.get_rect_info LeftRegion.Middle).height_percentage +
      (GetRegionInfo.get_rect_info LeftRegion.Bottom).height_percentage = 100 ∧
    (GetRegionInfo.get_rect_info RightRegion.Top).height_percentage +
      (GetRegionInfo.get_rect_info RightRegion.Bottom).height_percentage = 100 ∧
    (GetRegionInfo.get_rect_info LeftRegion.Top).index = 0 ∧
    (GetRegionInfo.get_rect_info LeftRegion.Middle).index = 1 ∧
    (GetRegionInfo.get_rect_info LeftRegion.Bottom).index = 2 ∧
    (GetRegionInfo.get_rect_info RightRegion.Top).index = 0 ∧
    (GetRegionInfo.get_rect_info RightRegion.Bottom).index = 1 := by
  decide

/-- C7: `Regions.draw` emits exactly one decorated block per declared slot,
in the fixed order left Top/Middle/Bottom then right Top/Bottom, each paired
with the rectangle looked up for that same slot; the emitted titles identify
the slots in that order. -/
theorem regions_draw_order (r : Regions LeftRegion RightRegion) :
    r.draw =
      [ (r.left.block LeftRegion.Top, r.left.rect LeftRegion.Top),
        (r.left.block LeftRegion.Middle, r.left.rect LeftRegion.Middle),
        (r.left.block LeftRegion.Bottom, r.left.rect LeftRegion.Bottom),
        (r.right.block RightRegion.Top, r.right.rect RightRegion.Top),
        (r.right.block RightRegion.Bottom, r.right.rect RightRegion.Bottom) ] ∧
    r.draw.length = 5 ∧
    r.draw.map (fun c => c.1.title) =
      [some "Backend (b)", some "Benches (n)", some "Action (a)",
       some "Results (r)", some "Progress (p)"] :=
  ⟨rfl, rfl, rfl⟩

/-- C8: the layout is a pure function of the frame dimensions — two frames
with identical width and height (whatever their other state, here the
redraw counter) produce identical left and right rectangle sequences. -/
theorem regions_new_deterministic (f1 f2 : Frame)
    (hw : f1.width = f2.width) (hh : f1.height = f2.height) :
    Regions.new f1 = Regions.new f2 := by
  cases f1
  cases f2
  simp only at hw hh
  subst hw
  subst hh
  rfl

/-- C8 witness: two 80×24 frames at different redraw counts yield the same
layout. -/
theorem regions_new_deterministic_witness :
    (⟨80, 24, 0⟩ : Frame).width = (⟨80, 24, 5⟩ : Frame).width ∧
    (⟨80, 24, 0⟩ : Frame).height = (⟨80, 24, 5⟩ : Frame).height ∧
    Regions.new ⟨80, 24, 0⟩ = Regions.new ⟨80, 24, 5⟩ :=
  ⟨rfl, rfl, regions_new_deterministic ⟨80, 24, 0⟩ ⟨80, 24, 5⟩ rfl rfl⟩

/-- C9 counterexample: the construction contract alone does not rule
out-of-range lookups out — `Region::new` accepts an arbitrary rectangle
sequence, so a `Region` holding an empty sequence is constructible through
the public constructor, and looking up its Top slot indexes out of range
(the Rust indexing would panic; the embedding returns `none`). -/
theorem region_rect_out_of_range_counterexample :
    (Region.new LeftRegion []).rect LeftRegion.Top = none :=
  rfl

/-- C9 amended: regions obtained through `Regions.new` are always fully
populated, so on them every slot lookup is in bounds; the guarantee comes
from the layout computation producing one rectangle per declared slot, not
from `Region::new`, which accepts sequences of any length. -/
theorem regions_new_rect_in_bounds (f : Frame) :
    (∀ s : LeftRegion, ((Regions.new f).left.rect s).isSome = true) ∧
    (∀ s : RightRegion, ((Regions.new f).right.rect s).isSome = true) := by
  constructor
  · intro s
    cases s <;> simp [Region.rect, regions_new_left_rects, instGetRegionInfoLeft]
  · intro s
    cases s <;> simp [Region.rect, regions_new_right_rects, instGetRegionInfoRight]

/-- C10: the decorated block depends only on the slot identity, never on the
region's state — any two regions of the same column type give identical
blocks for the same slot, and the padding is unconditionally 10/10/2/2. -/
theorem region_block_state_independent (T : Type) [GetRegionInfo T]
    (r1 r2 : Region T) (p : T) :
    r1.block p = r2.block p ∧ (r1.block p).padding = ⟨10, 10, 2, 2⟩ :=
  ⟨rfl, rfl⟩
